import Mathlib

/-!
Verification of the forta-network/disco registry core against its
specification.

The development shallowly embeds the Go source:

* `Md5` — the MD5 hash (used by the content router via Go's `crypto/md5`),
  implemented from the standard algorithm so that the router's test vectors
  can be checked by evaluation.
* `Utils` — the CID/digest string predicates of `utils/hash.go`.  The
  external `go-cid` / `go-multihash` parsers are abstracted as function
  parameters; a Go panic is modelled as `Option.none`.
* `Router` — `RouteContent` of the ipfsclient router.
* `RouterClient` — the routed MFS client's `FilesCp` / `FilesMv`.
* `Multi` — the multi-driver's `Replicate` machinery over an in-memory
  store model, and the composite `fileWriter`.
* `Svc` — the Disco service state machines `MakeGlobalRepo` and
  `CloneGlobalRepo`, embedded over an oracle environment that fixes the
  result of every external call; every call is recorded in an effect trace.
* `Proxy` — the proxy pre/post handler classification.
-/

namespace Disco

/-! ## Bytes and UTF-8 -/

/-- UTF-8 encoding of a single character (standard 1–4 byte encoding),
as Go obtains when converting a `string` to `[]byte`. -/
def utf8Char (c : Char) : List Nat :=
  let n := c.toNat
  if n < 0x80 then [n]
  else if n < 0x800 then
    [0xC0 + n / 64, 0x80 + n % 64]
  else if n < 0x10000 then
    [0xE0 + n / 4096, 0x80 + (n / 64) % 64, 0x80 + n % 64]
  else
    [0xF0 + n / 262144, 0x80 + (n / 4096) % 64, 0x80 + (n / 64) % 64, 0x80 + n % 64]

/-- UTF-8 bytes of a string, i.e. Go's `[]byte(s)`. -/
def utf8Bytes (s : String) : List Nat :=
  s.data.flatMap utf8Char

/-- Big-endian interpretation of a byte list as a natural number;
this is Go's `new(big.Int).SetBytes(b)`. -/
def beNat (bs : List Nat) : Nat :=
  bs.foldl (fun acc b => acc * 256 + b) 0

/-! ## MD5 (Go `crypto/md5`), from the standard algorithm -/

namespace Md5

/-- Per-round left-rotation amounts. -/
def sTable : List Nat :=
  [7, 12, 17, 22, 7, 12, 17, 22, 7, 12, 17, 22, 7, 12, 17, 22,
   5, 9, 14, 20, 5, 9, 14, 20, 5, 9, 14, 20, 5, 9, 14, 20,
   4, 11, 16, 23, 4, 11, 16, 23, 4, 11, 16, 23, 4, 11, 16, 23,
   6, 10, 15, 21, 6, 10, 15, 21, 6, 10, 15, 21, 6, 10, 15, 21]

/-- Round constants `K[i] = floor(2^32 * |sin(i+1)|)`. -/
def kTable : List Nat :=
  [0xd76aa478, 0xe8c7b756, 0x242070db, 0xc1bdceee,
   0xf57c0faf, 0x4787c62a, 0xa8304613, 0xfd469501,
   0x698098d8, 0x8b44f7af, 0xffff5bb1, 0x895cd7be,
   0x6b901122, 0xfd987193, 0xa679438e, 0x49b40821,
   0xf61e2562, 0xc040b340, 0x265e5a51, 0xe9b6c7aa,
   0xd62f105d, 0x02441453, 0xd8a1e681, 0xe7d3fbc8,
   0x21e1cde6, 0xc33707d6, 0xf4d50d87, 0x455a14ed,
   0xa9e3e905, 0xfcefa3f8, 0x676f02d9, 0x8d2a4c8a,
   0xfffa3942, 0x8771f681, 0x6d9d6122, 0xfde5380c,
   0xa4beea44, 0x4bdecfa9, 0xf6bb4b60, 0xbebfbc70,
   0x289b7ec6, 0xeaa127fa, 0xd4ef3085, 0x04881d05,
   0xd9d4d039, 0xe6db99e5, 0x1fa27cf8, 0xc4ac5665,
   0xf4292244, 0x432aff97, 0xab9423a7, 0xfc93a039,
   0x655b59c3, 0x8f0ccc92, 0xffeff47d, 0x85845dd1,
   0x6fa87e4f, 0xfe2ce6e0, 0xa3014314, 0x4e0811a1,
   0xf7537e82, 0xbd3af235, 0x2ad7d2bb, 0xeb86d391]

/-- 32-bit mask modulus. -/
def m32 : Nat := 4294967296

/-- 32-bit left rotation (operands are kept below `2^32`). -/
def rotl (x c : Nat) : Nat :=
  ((x * 2 ^ c) % m32) + (x / 2 ^ (32 - c))

/-- Bitwise complement within 32 bits. -/
def not32 (x : Nat) : Nat := Nat.xor x 0xffffffff

/-- Little-endian bytes (fixed width `w` bytes) of a natural number. -/
def leBytes : Nat → Nat → List Nat
  | 0, _ => []
  | w + 1, n => n % 256 :: leBytes w (n / 256)

/-- Pad a message per MD5: append `0x80`, zeros to 56 mod 64,
then the 64-bit little-endian bit length. -/
def pad (msg : List Nat) : List Nat :=
  let len := msg.length
  let zeros := (119 - (len % 64)) % 64
  msg ++ [0x80] ++ List.replicate zeros 0 ++ leBytes 8 ((len * 8) % 2 ^ 64)

/-- The 16 little-endian 32-bit words of one 64-byte chunk. -/
def words (chunk : List Nat) : List Nat :=
  (List.range 16).map fun j =>
    chunk.getD (4 * j) 0 + 256 * chunk.getD (4 * j + 1) 0 +
      65536 * chunk.getD (4 * j + 2) 0 + 16777216 * chunk.getD (4 * j + 3) 0

/-- One of the 64 rounds of the MD5 compression function. -/
def round (ms : List Nat) (st : Nat × Nat × Nat × Nat) (i : Nat) :
    Nat × Nat × Nat × Nat :=
  let (a, b, c, d) := st
  let (f, g) :=
    if i < 16 then (Nat.lor (Nat.land b c) (Nat.land (not32 b) d), i)
    else if i < 32 then (Nat.lor (Nat.land d b) (Nat.land (not32 d) c), (5 * i + 1) % 16)
    else if i < 48 then (Nat.xor b (Nat.xor c d), (3 * i + 5) % 16)
    else (Nat.xor c (Nat.lor b (not32 d)), (7 * i) % 16)
  let f := (f + a + kTable.getD i 0 + ms.getD g 0) % m32
  (d, (b + rotl f (sTable.getD i 0)) % m32, b, c)

/-- MD5 compression of one 64-byte chunk into the running state. -/
def compress (st : Nat × Nat × Nat × Nat) (chunk : List Nat) :
    Nat × Nat × Nat × Nat :=
  let ms := words chunk
  let (a, b, c, d) := (List.range 64).foldl (round ms) st
  let (a0, b0, c0, d0) := st
  ((a0 + a) % m32, (b0 + b) % m32, (c0 + c) % m32, (d0 + d) % m32)

/-- Fold the compression over `n` consecutive 64-byte chunks
(structural recursion on the chunk count, so that the kernel can
evaluate the function). -/
def chunksFoldAux : Nat → Nat × Nat × Nat × Nat → List Nat → Nat × Nat × Nat × Nat
  | 0, st, _ => st
  | n + 1, st, bytes => chunksFoldAux n (compress st (bytes.take 64)) (bytes.drop 64)

/-- Fold the compression over all 64-byte chunks of a padded message
(the padded length is always a multiple of 64). -/
def chunksFold (st : Nat × Nat × Nat × Nat) (bytes : List Nat) :
    Nat × Nat × Nat × Nat :=
  chunksFoldAux (bytes.length / 64) st bytes

/-- The 16-byte MD5 digest of a byte sequence. -/
def sum (msg : List Nat) : List Nat :=
  let (a, b, c, d) :=
    chunksFold (0x67452301, 0xefcdab89, 0x98badcfe, 0x10325476) (pad msg)
  leBytes 4 a ++ leBytes 4 b ++ leBytes 4 c ++ leBytes 4 d

end Md5

/-! ## Go string helpers -/

/-- Go `strings.Split(s, "/")` on the character list of `s`
(single-character separator; `Split("", "/") = [""]`). -/
def splitSlash : List Char → List (List Char)
  | [] => [[]]
  | c :: rest =>
    if c = '/' then [] :: splitSlash rest
    else
      match splitSlash rest with
      | seg :: segs => (c :: seg) :: segs
      | [] => [[c]]

/-- Go `strings.Contains(s, sub)` on character lists. -/
def containsSub (s sub : List Char) : Bool :=
  match s with
  | [] => sub.isEmpty
  | _ :: rest => sub.isPrefixOf s || containsSub rest sub

/-- Go `strings.Contains` on strings. -/
def strContains (s sub : String) : Bool :=
  containsSub s.data sub.data

/-! ## CID / digest utilities (`utils/hash.go`)

The external `go-cid` and `go-multihash` parsers are not part of this
repository; they are abstracted as a record of total functions (the Go
functions return errors, never panic).  A Go runtime panic in this
repository's own code is modelled as `Option.none`. -/

/-- Abstraction of the external `go-cid` / `go-multihash` library.
`parse` returns the CID version on success (`cid.Parse`); `fromB58`
returns an abstract multihash handle (`multihash.FromB58String`);
`mhEncode` is `multihash.Encode(·, SHA2_256)`; `cidV1Str` is
`cid.NewCidV1(cid.DagProtobuf, mh).String()`. -/
structure CidLib where
  parse : String → Option Nat
  fromB58 : String → Except String Nat
  mhEncode : List Nat → Except String Nat
  cidV1Str : Nat → String

/-- Value of one hex digit byte, as Go `encoding/hex` accepts it. -/
def hexVal (b : Nat) : Option Nat :=
  if 48 ≤ b ∧ b ≤ 57 then some (b - 48)
  else if 97 ≤ b ∧ b ≤ 102 then some (b - 87)
  else if 65 ≤ b ∧ b ≤ 70 then some (b - 55)
  else none

/-- Go `hex.DecodeString` over UTF-8 bytes: pairs of hex digits;
odd length or an invalid digit is an error. -/
def hexDecode : List Nat → Option (List Nat)
  | [] => some []
  | [_] => none
  | a :: b :: rest => do
    let hi ← hexVal a
    let lo ← hexVal b
    let tail ← hexDecode rest
    pure ((hi * 16 + lo) :: tail)

/-- `utils.IsCIDv1`: the parse succeeds and the version is 1. -/
def IsCIDv1 (lib : CidLib) (h : String) : Bool :=
  match lib.parse h with
  | none => false
  | some v => v == 1

/-- `utils.IsDigestHex`: exactly 64 bytes that decode as hex. -/
def IsDigestHex (digest : String) : Bool :=
  let bs := utf8Bytes digest
  if bs.length ≠ 64 then false
  else (hexDecode bs).isSome

/-- `utils.IsIPFSPath`.  The Go code reads `path[0]` before any length
check, so the empty string panics (`none`). -/
def IsIPFSPath (lib : CidLib) (path : String) : Option Bool :=
  match path.data with
  | [] => none
  | c :: rest =>
    if c ≠ '/' then some false
    else
      let segments := splitSlash rest
      if segments.length ≠ 2 then some false
      else some (lib.parse path).isSome

/-- `utils.ToCIDv1`: base58 parse failure is returned as an error. -/
def ToCIDv1 (lib : CidLib) (cidV0 : String) : Except String String :=
  match lib.fromB58 cidV0 with
  | .error e => .error e
  | .ok mh => .ok (lib.cidV1Str mh)

/-- `utils.ConvertSHA256HexToCIDv1`: hex or multihash failure is
returned as an error. -/
def ConvertSHA256HexToCIDv1 (lib : CidLib) (hashHex : String) :
    Except String String :=
  match hexDecode (utf8Bytes hashHex) with
  | none => .error "encoding hex error"
  | some b =>
    match lib.mhEncode b with
    | .error e => .error e
    | .ok mh => .ok (lib.cidV1Str mh)

/-! ## Content router (`Router.RouteContent`)

`Option.none` models a Go runtime panic: slicing `path[1:]` of an empty
string, indexing a missing segment, and `big.Int.Mod` with a zero node
count all panic at runtime. -/

/-- Node index for a content id: `MD5(id)` as a big-endian integer,
modulo the node count. -/
def md5Mod (id : String) (n : Nat) : Nat :=
  beNat (Md5.sum (utf8Bytes id)) % n

/-- `Router.RouteContent` after the initial `strings.Split(path[1:], "/")`:
the checks and the switch over the content-kind segment. -/
def routeContentSegs (n : Nat) (segments : List String) :
    Option (Except String (String × Nat)) :=
  if segments.length < 5 then
    some (.error "has less than 5 segments")
  else if segments.getD 0 "" ≠ "docker" ∨ segments.getD 1 "" ≠ "registry" ∨
      segments.getD 2 "" ≠ "v2" then
    some (.error "has invalid first 3 segments")
  else
    let segments := segments.drop 3
    let idIndex : Option Nat :=
      if segments.getD 0 "" = "repositories" ∨ segments.getD 0 "" = "uploads" then
        some 1
      else if segments.getD 0 "" = "blobs" then some 3
      else none
    match idIndex with
    | none => some (.error "has invalid content kind segment")
    | some i =>
      match segments[i]? with
      | none => none
      | some id => if n = 0 then none else some (.ok (id, md5Mod id n))

/-- `Router.RouteContent` with node count `n`. -/
def routeContent (n : Nat) (path : String) : Option (Except String (String × Nat)) :=
  match path.data with
  | [] => none
  | _ :: rest => routeContentSegs n ((splitSlash rest).map fun cs => String.mk cs)

/-- The segment list `RouteContent` computes for a non-empty path:
`strings.Split(path[1:], "/")`. -/
def pathSegs (path : String) : List String :=
  (splitSlash path.data.tail).map fun cs => String.mk cs

/-- A concrete instantiation of the external CID library used to
evaluate the embedding at closed inputs. -/
def trivialCidLib : CidLib :=
  ⟨fun _ => none, fun _ => .error "parse error", fun _ => .error "encode error", fun _ => "cid"⟩

/-! ## Storage paths (`proxy/services`, path helpers) -/

def registryBase : String := "/docker/registry/v2"

def repositoriesBase : String := registryBase ++ "/repositories"

def makeRepoPath (repoName : String) : String :=
  repositoriesBase ++ "/" ++ repoName

def makeManifestLinkPath (repoName : String) : String :=
  makeRepoPath repoName ++ "/_manifests/tags/latest/current/link"

def blobsBase : String := registryBase ++ "/blobs/sha256"

/-- `makeBlobDirPath` shards by the first two hex characters
(`digest[:2]`; digests are ASCII hex, so bytes and characters agree). -/
def makeBlobDirPath (digest : String) : String :=
  blobsBase ++ "/" ++ digest.take 2 ++ "/" ++ digest

def makeBlobPath (digest : String) : String :=
  makeBlobDirPath digest ++ "/data"

def makeDiscoFilePath (repoName : String) : String :=
  repositoriesBase ++ "/" ++ repoName ++ "/disco.json"

def makeTagPathFor (repoName tag : String) : String :=
  repositoriesBase ++ "/" ++ repoName ++ "/_manifests/tags/" ++ tag

/-! ## Disco service (`MakeGlobalRepo` / `CloneGlobalRepo`)

The service is embedded over an oracle environment `SvcEnv` that fixes
the result of every external call (each helper is invoked at most once
per argument during one run, so a function-of-arguments oracle captures
any single execution).  Every call is recorded in an effect trace. -/

/-- `Disco.IsOnlyPullable`. -/
def IsOnlyPullable (lib : CidLib) (repoName : String) : Bool :=
  IsCIDv1 lib repoName || IsDigestHex repoName

/-- Result of a driver `Stat`: size and directory flag. -/
structure FileInfo where
  size : Int
  isDir : Bool
deriving DecidableEq

/-- Driver error: the distinguished `PathNotFoundError` or any other. -/
inductive DErr
  | pathNotFound
  | other (msg : String)
deriving DecidableEq

/-- One `{digest, cid}` entry of `disco.json`. -/
structure BlobCid where
  digest : String
  cid : String
deriving DecidableEq

/-- External calls the service makes, recorded in order. -/
inductive Eff
  | readLink (path : String)
  | statCall (path : String)
  | populatePaths (digest : String)
  | repPrimary (path : String)
  | repSecondary (path : String)
  | populateBlobs (digest : String)
  | writeDisco (repoName : String)
  | getCidOf (path : String)
  | getClient (path : String)
  | mkdirAt (node : Nat) (path : String)
  | rmAt (node : Nat) (path : String) (force : Bool)
  | cpAt (node : Nat) (src dst : String)
  | tagCopy (repoName tag : String)
  | readDisco (repoName : String)
  | blobStatAt (node : Nat) (path : String)
  | driverDelete (path : String)
deriving DecidableEq

/-- Oracle environment for one service run. -/
structure SvcEnv where
  lib : CidLib
  noClone : Bool
  isMulti : Bool
  digestFromLink : String → Except String String
  driverStat : String → Except DErr FileInfo
  populateBlobFilePaths : String → Except String (List String)
  repInPrimary : String → Except String Unit
  repInSecondary : String → Except String Unit
  populateBlobsWithCids : String → Except String (List BlobCid)
  writeDisco : String → List BlobCid → Option String
  getCid : String → Except String String
  getClientFor : String → Except String Nat
  filesMkdir : Nat → String → Option String
  filesRm : Nat → String → Bool → Option String
  filesCp : Nat → String → String → Option String
  createTag : String → String → Option String
  readDiscoFile : String → Except String (List BlobCid)
  filesStatAt : Nat → String → Except String Unit

/-- The loop of `replicateInPrimary` / `replicateInSecondary`: replicate
each path, wrapping the first failure. -/
def repLoop (op : String → Except String Unit) (eff : String → Eff) (wrap : String)
    : List String → Option String × List Eff
  | [] => (none, [])
  | p :: rest =>
    match op p with
    | .error e =>
      (some ("failed to replicate '" ++ p ++ "' " ++ wrap ++ ": " ++ e), [eff p])
    | .ok _ =>
      let (r, t) := repLoop op eff wrap rest
      (r, eff p :: t)

/-- `disco.replicateInPrimary`: a no-op unless the driver is the
multi-driver. -/
def replicateInPrimaryGo (env : SvcEnv) (contentPaths : List String) :
    Option String × List Eff :=
  if ¬env.isMulti then (none, [])
  else repLoop env.repInPrimary Eff.repPrimary "in primary" contentPaths

/-- `disco.replicateInSecondary`: a no-op unless the driver is the
multi-driver. -/
def replicateInSecondaryGo (env : SvcEnv) (contentPaths : List String) :
    Option String × List Eff :=
  if ¬env.isMulti then (none, [])
  else repLoop env.repInSecondary Eff.repSecondary "in secondary" contentPaths

/-- `disco.tryReplicateInSecondary`. -/
def tryReplicateInSecondaryGo (env : SvcEnv) (contentPath : String) :
    Option String × List Eff :=
  if ¬env.isMulti then (none, [])
  else
    match env.repInSecondary contentPath with
    | .ok _ => (none, [.repSecondary contentPath])
    | .error e => (some e, [.repSecondary contentPath])

/-- The body of `MakeGlobalRepo` (everything except the deferred
delete), transcribed statement by statement from the source. -/
def makeGlobalRepoBody (env : SvcEnv) (repoName : String) :
    Except String Unit × List Eff :=
  let uploadRepoPath := makeRepoPath repoName
  let t0 : List Eff := [.readLink (makeManifestLinkPath repoName)]
  match env.digestFromLink (makeManifestLinkPath repoName) with
  | .error e => (.error ("failed to read the digest from the link: " ++ e), t0)
  | .ok manifestDigest =>
    let manifestDigestRepoPath := makeRepoPath manifestDigest
    let t1 := t0 ++ [.statCall manifestDigestRepoPath]
    -- `if err == nil && stat.Size() > 0 { return nil }`; a stat error is
    -- not returned, it merely skips the shortcut
    let madeGlobal :=
      match env.driverStat manifestDigestRepoPath with
      | .ok stat => decide (0 < stat.size)
      | .error _ => false
    if madeGlobal then (.ok (), t1)
    else
      let t2 := t1 ++ [.populatePaths manifestDigest]
      match env.populateBlobFilePaths manifestDigest with
      | .error e => (.error ("failed to populate blob file paths: " ++ e), t2)
      | .ok paths =>
        let contentPaths := paths ++ [uploadRepoPath]
        let rep := replicateInPrimaryGo env contentPaths
        let t3 := t2 ++ rep.2
        match rep.1 with
        | some _ => (.ok (), t3) -- the source returns nil here, dropping the error
        | none =>
          let t4 := t3 ++ [.populateBlobs manifestDigest]
          match env.populateBlobsWithCids manifestDigest with
          | .error e => (.error ("failed to populate blobs: " ++ e), t4)
          | .ok blobs =>
            let t5 := t4 ++ [.writeDisco repoName]
            match env.writeDisco repoName blobs with
            | some e => (.error ("failed to write the disco file: " ++ e), t5)
            | none =>
              let t6 := t5 ++ [.getCidOf uploadRepoPath]
              match env.getCid uploadRepoPath with
              | .error e => (.error ("failed while getting the repo cid: " ++ e), t6)
              | .ok repoCid =>
                match ToCIDv1 env.lib repoCid with
                | .error e =>
                  (.error ("failed to convert cid v0 '" ++ repoCid ++ "' to v1: " ++ e), t6)
                | .ok repoCidV1 =>
                  let ipfsCidRepoPath := makeRepoPath repoCidV1
                  let t7 := t6 ++ [.getClient ipfsCidRepoPath]
                  match env.getClientFor ipfsCidRepoPath with
                  | .error e =>
                    (.error ("failed to find client for cid repo (to copy after upload is done): "
                      ++ e), t7)
                  | .ok cidNode =>
                    let t8 := t7 ++ [.mkdirAt cidNode repositoriesBase,
                      .rmAt cidNode ipfsCidRepoPath true,
                      .cpAt cidNode ("/ipfs/" ++ repoCid) ipfsCidRepoPath]
                    let step3 : List Eff → Except String Unit × List Eff := fun t =>
                      match env.getClientFor manifestDigestRepoPath with
                      | .error e =>
                        (.error
                          ("failed to find client for destination repo provider (before copying digest-name repo): "
                            ++ e), t ++ [.getClient manifestDigestRepoPath])
                      | .ok digNode =>
                        let t' := t ++ [.getClient manifestDigestRepoPath,
                          .mkdirAt digNode repositoriesBase,
                          .rmAt digNode manifestDigestRepoPath true,
                          .cpAt digNode ("/ipfs/" ++ repoCid) manifestDigestRepoPath]
                        match env.filesCp digNode ("/ipfs/" ++ repoCid) manifestDigestRepoPath with
                        | some e => (.error ("failed while duplicating with digest: " ++ e), t')
                        | none =>
                          let t'' := t' ++ [.tagCopy manifestDigest repoCidV1]
                          match env.createTag manifestDigest repoCidV1 with
                          | some _ => (.error "failed to create tag for latest", t'')
                          | none =>
                            let rep2 := replicateInSecondaryGo env
                              [manifestDigestRepoPath, ipfsCidRepoPath]
                            let t''' := t'' ++ rep2.2
                            match rep2.1 with
                            | some e => (.error e, t''')
                            | none => (.ok (), t''')
                    match env.filesCp cidNode ("/ipfs/" ++ repoCid) ipfsCidRepoPath with
                    | some e =>
                      if strContains e "already has entry" then step3 t8
                      else (.error ("failed while duplicating with base32 cid: " ++ e), t8)
                    | none => step3 t8

/-- `Disco.MakeGlobalRepo`: the body plus the deferred delete of the
arbitrary-name repository directory, registered only when the name is
neither CID v1 nor digest hex. -/
def MakeGlobalRepo (env : SvcEnv) (repoName : String) :
    Except String Unit × List Eff :=
  let r := makeGlobalRepoBody env repoName
  if ¬(IsCIDv1 env.lib repoName) ∧ ¬(IsDigestHex repoName) then
    (r.1, r.2 ++ [.driverDelete (makeRepoPath repoName)])
  else r

/-- The blob-fetch loop of `CloneGlobalRepo` (steps 2 and 3). -/
def cloneBlobLoop (env : SvcEnv) : List BlobCid → Option String × List Eff
  | [] => (none, [])
  | blob :: rest =>
    match env.getClientFor (makeBlobPath blob.digest) with
    | .error e => (some ("failed to get blob node client: " ++ e),
        [.getClient (makeBlobPath blob.digest)])
    | .ok node =>
      let t0 : List Eff := [.getClient (makeBlobPath blob.digest),
        .blobStatAt node (makeBlobPath blob.digest)]
      -- `hasFile`: stat ok → present; error containing "does not exist" →
      -- absent; any other error is wrapped twice (in hasFile and here)
      match env.filesStatAt node (makeBlobPath blob.digest) with
      | .ok _ =>
        let (r, t) := cloneBlobLoop env rest
        (r, t0 ++ t)
      | .error e =>
        if strContains e "does not exist" then
          let t1 := t0 ++ [.mkdirAt node (makeBlobDirPath blob.digest),
            .cpAt node ("/ipfs/" ++ blob.cid) (makeBlobPath blob.digest)]
          match env.filesCp node ("/ipfs/" ++ blob.cid) (makeBlobPath blob.digest) with
          | some e' => (some ("failed while copying blob " ++ blob.digest ++ " (" ++ blob.cid
              ++ ") from the network: " ++ e'), t1)
          | none =>
            let (r, t) := cloneBlobLoop env rest
            (r, t1 ++ t)
        else
          (some ("failed to check if blob exists: " ++
            ("failed to check if file exists: " ++ e)), t0)

/-- The tail of `CloneGlobalRepo` after the disco-file stat dispatch:
the noclone shortcut, the network clone and the final replication. -/
def cloneRest (env : SvcEnv) (repoName : String) (t : List Eff) :
    Except String Unit × List Eff :=
  if env.noClone then (.ok (), t)
  else
    let t0 := t ++ [.readDisco repoName]
    match env.readDiscoFile repoName with
    | .error e => (.error ("failed to read the disco file: " ++ e), t0)
    | .ok blobs =>
      let lp := cloneBlobLoop env blobs
      let t1 := t0 ++ lp.2
      match lp.1 with
      | some e => (.error e, t1)
      | none =>
        let contentPaths := makeRepoPath repoName :: blobs.map fun b => makeBlobPath b.digest
        let rep := replicateInSecondaryGo env contentPaths
        let t2 := t1 ++ rep.2
        match rep.1 with
        | some e => (.error e, t2)
        | none => (.ok (), t2)

/-- `Disco.CloneGlobalRepo`, transcribed statement by statement. -/
def CloneGlobalRepo (env : SvcEnv) (repoName : String) :
    Except String Unit × List Eff :=
  if ¬(IsCIDv1 env.lib repoName) then (.ok (), [])
  else
    let t0 : List Eff := [.statCall (makeDiscoFilePath repoName)]
    match env.driverStat (makeDiscoFilePath repoName) with
    | .ok st =>
      if ¬st.isDir ∧ 0 < st.size then (.ok (), t0)
      else cloneRest env repoName t0
    | .error .pathNotFound =>
      let rep := tryReplicateInSecondaryGo env (makeRepoPath repoName)
      let t1 := t0 ++ rep.2
      match rep.1 with
      | none => (.ok (), t1)
      | some _ => cloneRest env repoName t1
    | .error (.other e) =>
      (.error ("failed to check disco file using the driver: " ++ e), t0)

/-! ## Driver factory (`drivers/ipfs`, `driverFactory.Create`) -/

/-- The two driver shapes the factory can return. -/
inductive DriverVal
  | plainIpfs
  | multi
deriving DecidableEq

/-- `driverFactory.Create`: with no cache configured the plain IPFS
driver is returned; otherwise the multi-driver wraps it. -/
def driverFactoryCreate (cache : Option Unit) : DriverVal :=
  match cache with
  | none => .plainIpfs
  | some _ => .multi

/-- `multidriver.Is`: the type assertion succeeds only for the
multi-driver (the plain IPFS driver implements no replication methods). -/
def multidriverIs : DriverVal → Bool
  | .plainIpfs => false
  | .multi => true

/-! ## Proxy handler (`proxy/proxy.go`) -/

/-- What one request produced: the status written by a hook (if any),
whether it was forwarded to the embedded registry, and which service
hooks ran. -/
structure HandlerOut where
  status : Option Nat
  forwarded : Bool
  calledClone : Bool
  calledMake : Bool
deriving DecidableEq

/-- `preHandle`, second block: the HEAD/GET manifests pre-hook.
`cloneResult` is what `CloneGlobalRepo` would return. -/
def preHandleGet (cloneResult : Except String Unit) (method path : String) :
    Option (Option Nat × Bool × Bool) :=
  if (method = "HEAD" ∨ method = "GET") ∧ strContains path "/manifests/" then
    match (pathSegs path)[1]? with
    | none => none
    | some _ =>
      match cloneResult with
      | .error _ => some (some 500, true, true)
      | .ok _ => some (none, false, true)
  else some (none, false, false)

/-- `preHandle`: reject pushes to pullable-only names with 401, then the
HEAD/GET pre-hook.  The result is (status, done, calledClone); `none`
models a Go panic on segment indexing. -/
def preHandle (lib : CidLib) (cloneResult : Except String Unit) (method path : String) :
    Option (Option Nat × Bool × Bool) :=
  if method = "PUT" ∧ strContains path "/manifests/latest" then
    match (pathSegs path)[1]? with
    | none => none
    | some repoName =>
      if IsOnlyPullable lib repoName then some (some 401, true, false)
      else preHandleGet cloneResult method path
  else preHandleGet cloneResult method path

/-- `newHandler`: run the pre-hook; if it finished the request, stop;
otherwise forward to the embedded registry and run the post-hook
(`MakeGlobalRepo` on PUT manifests/latest). -/
def handler (lib : CidLib) (cloneResult : Except String Unit) (method path : String) :
    Option HandlerOut :=
  match preHandle lib cloneResult method path with
  | none => none
  | some (st, done, calledClone) =>
    if done then some ⟨st, false, calledClone, false⟩
    else
      if method = "PUT" ∧ strContains path "/manifests/latest" then
        match (pathSegs path)[1]? with
        | none => none
        | some _ => some ⟨st, true, calledClone, true⟩
      else some ⟨st, true, calledClone, false⟩

/-! ## Concrete environments for closed evaluations -/

/-- A benign oracle environment: every external call succeeds. -/
def baseEnv : SvcEnv where
  lib := trivialCidLib
  noClone := false
  isMulti := true
  digestFromLink := fun _ =>
    .ok "dca71257cd2e72840a21f0323234bb2e33fea6d949fa0f21c5102146f583486b"
  driverStat := fun _ => .error .pathNotFound
  populateBlobFilePaths := fun _ => .ok []
  repInPrimary := fun _ => .ok ()
  repInSecondary := fun _ => .ok ()
  populateBlobsWithCids := fun _ => .ok []
  writeDisco := fun _ _ => none
  getCid := fun _ => .ok "QmQahNfao3EqrFMKExRB8bedoSgot5mQJH5GDPBuMZH41r"
  getClientFor := fun _ => .ok 0
  filesMkdir := fun _ _ => none
  filesRm := fun _ _ _ => none
  filesCp := fun _ _ _ => none
  createTag := fun _ _ => none
  readDiscoFile := fun _ => .ok []
  filesStatAt := fun _ _ => .ok ()

/-- Environment in which replication into the primary store fails. -/
def envC1 : SvcEnv :=
  { baseEnv with repInPrimary := fun _ => .error "primary replication failed" }

/-- Environment in which the digest-named repository already exists with
nonzero size. -/
def envC4 : SvcEnv :=
  { baseEnv with driverStat := fun _ => .ok ⟨1, false⟩ }

/-- Environment whose CID library parses every name as a version-1 CID
and whose driver is the plain (non-multi) IPFS driver. -/
def envC10 : SvcEnv :=
  { baseEnv with
    lib := ⟨fun _ => some 1, fun _ => .error "e", fun _ => .error "e", fun _ => "c"⟩
    isMulti := false }

/-! ## Composite file writer (`drivers/multidriver/filewriter.go`)

The two backend `storagedriver.FileWriter`s are modelled as logging
state machines over one shared world, so that the order of backend
calls is observable; injected error schedules determine each call's
result.  (`filewriter.WithLogger` only adds logging and is semantically
the identity.) -/

/-- Backend writer events, in call order. -/
inductive WEv
  | wPri (chunk : List Nat)
  | wSec (chunk : List Nat)
  | clPri
  | clSec
  | caPri
  | caSec
  | coPri
  | coSec
deriving DecidableEq

/-- Error schedules for the two backend writers: `priWriteE k` is the
error the primary returns on its k-th `Write` call, and so on. -/
structure WEnv where
  priWriteE : Nat → Option String
  secWriteE : Nat → Option String
  priCloseE : Option String
  secCloseE : Option String
  priCancelE : Option String
  secCancelE : Option String
  priCommitE : Option String
  secCommitE : Option String

/-- Shared world: the call trace, per-backend write-call counters, and
per-backend byte counts (a backend's `Size`). -/
structure WState where
  trace : List WEv
  priCalls : Nat
  secCalls : Nat
  priBytes : Nat
  secBytes : Nat
deriving DecidableEq

/-- The primary backend's `Write`. -/
def priWrite (env : WEnv) (s : WState) (p : List Nat) :
    (Nat × Option String) × WState :=
  let s' := { s with trace := s.trace ++ [.wPri p], priCalls := s.priCalls + 1 }
  match env.priWriteE s.priCalls with
  | some e => ((0, some e), s')
  | none => ((p.length, none), { s' with priBytes := s'.priBytes + p.length })

/-- The secondary backend's `Write`. -/
def secWrite (env : WEnv) (s : WState) (p : List Nat) :
    (Nat × Option String) × WState :=
  let s' := { s with trace := s.trace ++ [.wSec p], secCalls := s.secCalls + 1 }
  match env.secWriteE s.secCalls with
  | some e => ((0, some e), s')
  | none => ((p.length, none), { s' with secBytes := s'.secBytes + p.length })

/-- `fileWriter.Write`: primary first; a primary error returns at once;
otherwise the secondary, returning its error if any. -/
def fwWrite (env : WEnv) (s : WState) (p : List Nat) :
    (Nat × Option String) × WState :=
  let r1 := priWrite env s p
  if r1.1.2.isSome then (r1.1, r1.2)
  else
    let r2 := secWrite env r1.2 p
    if r2.1.2.isSome then (r2.1, r2.2)
    else ((r2.1.1, none), r2.2)

/-- `fileWriter.Size`: the primary writer's size. -/
def fwSize (s : WState) : Nat := s.priBytes

/-- `fileWriter.Close`: primary first, then secondary, first error
returned. -/
def fwClose (env : WEnv) (s : WState) : Option String × WState :=
  let s1 := { s with trace := s.trace ++ [WEv.clPri] }
  match env.priCloseE with
  | some e => (some e, s1)
  | none =>
    let s2 := { s1 with trace := s1.trace ++ [WEv.clSec] }
    match env.secCloseE with
    | some e => (some e, s2)
    | none => (none, s2)

/-- `fileWriter.Cancel`: primary first, then secondary, first error
returned. -/
def fwCancel (env : WEnv) (s : WState) : Option String × WState :=
  let s1 := { s with trace := s.trace ++ [WEv.caPri] }
  match env.priCancelE with
  | some e => (some e, s1)
  | none =>
    let s2 := { s1 with trace := s1.trace ++ [WEv.caSec] }
    match env.secCancelE with
    | some e => (some e, s2)
    | none => (none, s2)

/-- `fileWriter.Commit`: primary first, then secondary, first error
returned. -/
def fwCommit (env : WEnv) (s : WState) : Option String × WState :=
  let s1 := { s with trace := s.trace ++ [WEv.coPri] }
  match env.priCommitE with
  | some e => (some e, s1)
  | none =>
    let s2 := { s1 with trace := s1.trace ++ [WEv.coSec] }
    match env.secCommitE with
    | some e => (some e, s2)
    | none => (none, s2)

/-- Iterate `fileWriter.Write` over a sequence of chunks, collecting the
results. -/
def fwWriteAll (env : WEnv) (s : WState) :
    List (List Nat) → List (Nat × Option String) × WState
  | [] => ([], s)
  | c :: rest =>
    let r := fwWrite env s c
    let rs := fwWriteAll env r.2 rest
    (r.1 :: rs.1, rs.2)

/-- An error-free write environment. -/
def wEnvOk : WEnv :=
  ⟨fun _ => none, fun _ => none, none, none, none, none, none, none⟩

/-- The initial writer world. -/
def wInit : WState := ⟨[], 0, 0, 0, 0⟩

/-! ## Multi-driver replication (`drivers/multidriver/multidriver.go`)

Each backend store is modelled in memory as a list of entries (regular
files with their bytes, and directories); `Stat`, `Reader`,
`Writer`+`Commit` and `Walk` are the evident operations on it.  In this
model backend I/O does not fail, which matches the claim's scenarios. -/

/-- One object of a backend store. -/
structure Entry where
  path : String
  isDir : Bool
  content : List Nat
deriving DecidableEq

/-- First entry at a path (paths are unique in well-formed stores). -/
def findEntry (s : List Entry) (p : String) : Option Entry :=
  s.find? fun e => e.path == p

/-- The driver's `Stat`. -/
def statStore (s : List Entry) (p : String) : Except DErr FileInfo :=
  match findEntry s p with
  | some e => .ok ⟨Int.ofNat e.content.length, e.isDir⟩
  | none => .error .pathNotFound

/-- The driver's `Reader` (reading a directory fails). -/
def readStore (s : List Entry) (p : String) : Except DErr (List Nat) :=
  match findEntry s p with
  | some e => if e.isDir then .error (.other "is a directory") else .ok e.content
  | none => .error .pathNotFound

/-- The driver's `Writer(path, append=false)` + `Commit`: create or
overwrite the file at the path. -/
def putStore : List Entry → String → List Nat → List Entry
  | [], p, c => [⟨p, false, c⟩]
  | e :: rest, p, c =>
    if e.path == p then ⟨p, false, c⟩ :: rest else e :: putStore rest p c

/-- Is `p` the base path or strictly under it? -/
def underPath (base p : String) : Bool :=
  p == base || (base ++ "/").data.isPrefixOf p.data

/-- The driver's `Walk`: every entry at or under the base, in store
order. -/
def walkFiles (s : List Entry) (base : String) : List Entry :=
  s.filter fun e => underPath base e.path

/-- Go `strings.Replace(s, old, new, 1)` on character lists. -/
def replaceOnceL (l old new : List Char) : List Char :=
  match l with
  | [] => if old.isEmpty then new else []
  | c :: rest =>
    if old.isPrefixOf l then new ++ l.drop old.length
    else c :: replaceOnceL rest old new

/-- Go `strings.Replace(s, old, new, 1)`. -/
def replaceOnce (s old new : String) : String :=
  String.mk (replaceOnceL s.data old.data new.data)

/-- `syncD1ToD2`: stream the source file of the first store into the
second store and commit. -/
def syncD1ToD2 (d1 d2 : List Entry) (src dst : String) :
    Except DErr (List Entry) :=
  match readStore d1 src with
  | .error e => .error e
  | .ok c => .ok (putStore d2 dst c)

/-- The `Walk` callback loop of `Replicate`: skip directories, sync each
file to the path obtained by rewriting the base. -/
def walkSync (d1 : List Entry) (src dst : String) :
    List Entry → List Entry → Except DErr (List Entry)
  | d2, [] => .ok d2
  | d2, e :: rest =>
    if e.isDir then walkSync d1 src dst d2 rest
    else
      match syncD1ToD2 d1 d2 e.path (replaceOnce e.path src dst) with
      | .error er => .error er
      | .ok d2' => walkSync d1 src dst d2' rest

/-- `multidriver.Replicate(d1, d2, src, dst, mergeTree)`: returns the
info found in the second store (when already present) and the updated
second store. -/
def Replicate (d1 d2 : List Entry) (src dst : String) (mergeTree : Bool) :
    Except DErr (Option FileInfo) × List Entry :=
  let cont : Unit → Except DErr (Option FileInfo) × List Entry := fun _ =>
    match statStore d1 src with
    | .error .pathNotFound => (.error .pathNotFound, d2)
    | .error (.other e) =>
      (.error (.other ("failed to check in first before replication: " ++ e)), d2)
    | .ok i =>
      if ¬i.isDir then
        match syncD1ToD2 d1 d2 src dst with
        | .error e => (.error e, d2)
        | .ok d2' => (.ok none, d2')
      else
        match walkSync d1 src dst d2 (walkFiles d1 src) with
        | .error e => (.error e, d2)
        | .ok d2' => (.ok none, d2')
  if ¬mergeTree then
    match statStore d2 dst with
    | .ok i => (.ok (some i), d2)
    | .error .pathNotFound => cont ()
    | .error (.other e) =>
      (.error (.other ("failed to check in second before replication: " ++ e)), d2)
  else cont ()

/-- `driver.ReplicateInSecondary`: replicate primary → secondary at the
same path, then stat the secondary. -/
def ReplicateInSecondary (pri sec : List Entry) (p : String) :
    Except DErr FileInfo × List Entry :=
  match Replicate pri sec p p false with
  | (.error e, sec') => (.error e, sec')
  | (.ok _, sec') =>
    match statStore sec' p with
    | .ok i => (.ok i, sec')
    | .error e => (.error e, sec')

/-! ## Routed MFS client (`ipfsclient`, `RouterClient`)

The per-node clients are abstracted by result oracles; node-level calls
are recorded as events.  `Option.none` models a Go panic. -/

/-- Oracle environment of the router client: node count, the external
CID library, and per-node call results. -/
structure RCEnv where
  n : Nat
  lib : CidLib
  statHash : Nat → String → Except String String
  cpRes : Nat → String → String → Option String
  rmRes : Nat → String → Bool → Option String
  mvRes : Nat → String → String → Option String

/-- Node-level calls of the routed client, in order. -/
inductive REv
  | statAt (node : Nat) (path : String)
  | cpNode (node : Nat) (src dst : String)
  | rmNode (node : Nat) (path : String) (force : Bool)
  | mvNode (node : Nat) (src dst : String)
deriving DecidableEq

/-- `RouterClient.GetClientFor`: route the path to a node index. -/
def rcGetClientFor (env : RCEnv) (path : String) : Option (Except String Nat) :=
  match routeContent env.n path with
  | none => none
  | some (.error e) => some (.error e)
  | some (.ok (_, idx)) => some (.ok idx)

/-- `RouterClient.FilesStat`: route, then stat at the node (the hash of
the result is what the callers consume). -/
def rcFilesStat (env : RCEnv) (path : String) :
    Option (Except String String × List REv) :=
  match rcGetClientFor env path with
  | none => none
  | some (.error e) => some (.error e, [])
  | some (.ok i) => some (env.statHash i path, [.statAt i path])

/-- `RouterClient.FilesRm`: route, then remove at the node. -/
def rcFilesRm (env : RCEnv) (path : String) (force : Bool) :
    Option (Option String × List REv) :=
  match rcGetClientFor env path with
  | none => none
  | some (.error e) => some (some e, [])
  | some (.ok i) => some (env.rmRes i path force, [.rmNode i path force])

/-- The tail of `RouterClient.FilesCp`: route the destination and copy
there. -/
def rcCpAtDest (env : RCEnv) (src dest : String) (evs : List REv) :
    Option (Option String × List REv) :=
  match rcGetClientFor env dest with
  | none => none
  | some (.error e) => some (some e, evs)
  | some (.ok j) => some (env.cpRes j src dest, evs ++ [.cpNode j src dest])

/-- `RouterClient.FilesCp`: a source that is not an `/ipfs/<cid>` path
is first resolved to `/ipfs/<hash>` by `FilesStat`; then the copy is
issued at the destination node. -/
def rcFilesCp (env : RCEnv) (src dest : String) :
    Option (Option String × List REv) :=
  match IsIPFSPath env.lib src with
  | none => none
  | some isIpfs =>
    if isIpfs then rcCpAtDest env src dest []
    else
      match rcFilesStat env src with
      | none => none
      | some (.error e, evs) => some (some e, evs)
      | some (.ok hash, evs) => rcCpAtDest env ("/ipfs/" ++ hash) dest evs

/-- `RouterClient.FilesMv`: a native rename when source and destination
route to the same node (pointer equality of the node clients is index
equality); otherwise remove destination (error ignored), copy source to
destination, remove source at its node. -/
def rcFilesMv (env : RCEnv) (src dest : String) :
    Option (Option String × List REv) :=
  match rcGetClientFor env src with
  | none => none
  | some (.error e) => some (some e, [])
  | some (.ok i) =>
    match rcGetClientFor env dest with
    | none => none
    | some (.error e) => some (some e, [])
    | some (.ok j) =>
      if i = j then some (env.mvRes i src dest, [.mvNode i src dest])
      else
        match rcFilesRm env dest true with
        | none => none
        | some (_, evs1) =>
          match rcFilesCp env src dest with
          | none => none
          | some (some e, evs2) =>
            some (some ("cp failed while doing mv alternative: " ++ e), evs1 ++ evs2)
          | some (none, evs2) =>
            some (env.rmRes i src true, evs1 ++ evs2 ++ [.rmNode i src true])

/-- A concrete routed-client environment with two nodes and error-free
node calls. -/
def rcEnvW : RCEnv :=
  ⟨2, trivialCidLib, fun _ _ => .ok "QmHashW", fun _ _ _ => none,
    fun _ _ _ => none, fun _ _ _ => none⟩

end Disco

/-! # Theorems -/

namespace Disco

theorem getD_drop_str (l : List String) (n i : Nat) :
    (l.drop n).getD i "" = l.getD (n + i) "" := by
  simp [List.getD_eq_getElem?_getD, List.getElem?_drop]

theorem routeContent_eq (n : Nat) (path : String) (hne : path ≠ "") :
    routeContent n path = routeContentSegs n (pathSegs path) := by
  have hd : path.data ≠ [] := by
    intro h; exact hne (by cases path; simp_all)
  cases h : path.data with
  | nil => exact absurd h hd
  | cons a l => simp [routeContent, h, pathSegs]

theorem routeContentSegs_cases (n : Nat) (segs : List String) (hn : 0 < n) :
    (segs.length < 5 → ∃ e, routeContentSegs n segs = some (Except.error e)) ∧
    (¬(segs.getD 0 "" = "docker" ∧ segs.getD 1 "" = "registry" ∧ segs.getD 2 "" = "v2") →
      5 ≤ segs.length → ∃ e, routeContentSegs n segs = some (Except.error e)) ∧
    (segs.getD 0 "" = "docker" → segs.getD 1 "" = "registry" → segs.getD 2 "" = "v2" →
      5 ≤ segs.length →
      (segs.getD 3 "" ≠ "repositories" → segs.getD 3 "" ≠ "uploads" → segs.getD 3 "" ≠ "blobs" →
        ∃ e, routeContentSegs n segs = some (Except.error e)) ∧
      ((segs.getD 3 "" = "repositories" ∨ segs.getD 3 "" = "uploads") →
        routeContentSegs n segs = some (Except.ok (segs.getD 4 "", md5Mod (segs.getD 4 "") n))) ∧
      (segs.getD 3 "" = "blobs" → 7 ≤ segs.length →
        routeContentSegs n segs = some (Except.ok (segs.getD 6 "", md5Mod (segs.getD 6 "") n)))) := by
  refine ⟨?_, ?_, ?_⟩
  · intro hlt
    exact ⟨"has less than 5 segments", by simp [routeContentSegs, hlt]⟩
  · intro hpre hlen
    refine ⟨"has invalid first 3 segments", ?_⟩
    unfold routeContentSegs
    rw [if_neg (by omega), if_pos (by tauto)]
  · intro h0 h1 h2 hlen
    have e0 : (segs.drop 3).getD 0 "" = segs.getD 3 "" := getD_drop_str ..
    refine ⟨?_, ?_, ?_⟩
    · intro hk1 hk2 hk3
      refine ⟨"has invalid content kind segment", ?_⟩
      unfold routeContentSegs
      rw [if_neg (by omega), if_neg (by push_neg; exact ⟨h0, h1, h2⟩)]
      simp only [e0]
      rw [if_neg (by tauto), if_neg hk3]
    · intro hk
      unfold routeContentSegs
      rw [if_neg (by omega), if_neg (by push_neg; exact ⟨h0, h1, h2⟩)]
      simp only [e0]
      rw [if_pos hk]
      have hx : (segs.drop 3)[1]? = some (segs.getD 4 "") := by
        rw [List.getElem?_drop]
        have h4 : 4 < segs.length := by omega
        simp [List.getElem?_eq_getElem h4, List.getD_eq_getElem?_getD,
          List.getElem?_eq_getElem h4]
      simp [hx, Nat.pos_iff_ne_zero.mp hn]
    · intro hk hlen7
      unfold routeContentSegs
      rw [if_neg (by omega), if_neg (by push_neg; exact ⟨h0, h1, h2⟩)]
      simp only [e0]
      rw [if_neg (by rw [hk]; simp), if_pos hk]
      have hx : (segs.drop 3)[3]? = some (segs.getD 6 "") := by
        rw [List.getElem?_drop]
        have h6 : 6 < segs.length := by omega
        simp [List.getElem?_eq_getElem h6, List.getD_eq_getElem?_getD,
          List.getElem?_eq_getElem h6]
      simp [hx, Nat.pos_iff_ne_zero.mp hn]

set_option maxRecDepth 100000

/-- C5 (amended): for every node count N > 0 and every non-empty path,
`RouteContent` returns an error when the path has fewer than five
segments, when its first three segments are not docker/registry/v2, or
when the segment after the prefix is not one of repositories, uploads,
blobs; otherwise it returns the id segment (index 1 after the prefix for
repositories and uploads; index 3 after the prefix — requiring at least
seven segments — for blobs) and `nodeIndex = MD5(id) mod N` (big-endian);
with N = 2 the three E6 vectors return ("aa", 0), ("ac", 1) and
("aa", 0). -/
theorem routeContent_spec :
    (∀ n path, 0 < n → path ≠ "" →
      ((pathSegs path).length < 5 →
        ∃ e, routeContent n path = some (Except.error e)) ∧
      (¬((pathSegs path).getD 0 "" = "docker" ∧ (pathSegs path).getD 1 "" = "registry" ∧
          (pathSegs path).getD 2 "" = "v2") →
        5 ≤ (pathSegs path).length → ∃ e, routeContent n path = some (Except.error e)) ∧
      ((pathSegs path).getD 0 "" = "docker" → (pathSegs path).getD 1 "" = "registry" →
        (pathSegs path).getD 2 "" = "v2" → 5 ≤ (pathSegs path).length →
        ((pathSegs path).getD 3 "" ≠ "repositories" → (pathSegs path).getD 3 "" ≠ "uploads" →
          (pathSegs path).getD 3 "" ≠ "blobs" →
          ∃ e, routeContent n path = some (Except.error e)) ∧
        (((pathSegs path).getD 3 "" = "repositories" ∨ (pathSegs path).getD 3 "" = "uploads") →
          routeContent n path =
            some (Except.ok ((pathSegs path).getD 4 "", md5Mod ((pathSegs path).getD 4 "") n))) ∧
        ((pathSegs path).getD 3 "" = "blobs" → 7 ≤ (pathSegs path).length →
          routeContent n path =
            some (Except.ok ((pathSegs path).getD 6 "", md5Mod ((pathSegs path).getD 6 "") n))))) ∧
    routeContent 2 "/docker/registry/v2/repositories/aa" = some (Except.ok ("aa", 0)) ∧
    routeContent 2 "/docker/registry/v2/uploads/ac" = some (Except.ok ("ac", 1)) ∧
    routeContent 2 "/docker/registry/v2/blobs/sha256/aa/aa" = some (Except.ok ("aa", 0)) := by
  refine ⟨?_, rfl, rfl, rfl⟩
  intro n path hn hne
  rw [routeContent_eq n path hne]
  exact routeContentSegs_cases n (pathSegs path) hn

/-- C5 witness: the general characterization applied at a concrete
repositories path with N = 3. -/
theorem routeContent_spec_witness :
    routeContent 3 "/docker/registry/v2/repositories/myrepo" =
      some (Except.ok ("myrepo", md5Mod "myrepo" 3)) := by
  have h := ((routeContent_spec.1 3 "/docker/registry/v2/repositories/myrepo"
      (by decide) (by decide)).2.2 (by decide) (by decide) (by decide)
      (by decide)).2.1 (Or.inl (by decide))
  rw [show (pathSegs "/docker/registry/v2/repositories/myrepo").getD 4 "" = "myrepo" by
    decide] at h
  exact h

/-- C5 counterexample: the claim's universal reading fails — `RouteContent`
panics (models as `none`) instead of returning, on the empty path, on a
blobs path with fewer than seven segments, and with node count zero. -/
theorem routeContent_panics :
    routeContent 2 "" = none ∧
    routeContent 2 "/docker/registry/v2/blobs/sha256/aa" = none ∧
    routeContent 0 "/docker/registry/v2/repositories/aa" = none :=
  ⟨rfl, rfl, rfl⟩

/-- C9 counterexample: `IsIPFSPath` reads `path[0]` before any length
check, so on the empty string it panics (`none`) instead of returning
`false`. -/
theorem isIPFSPath_empty_string_panics :
    IsIPFSPath trivialCidLib "" = none ∧ IsIPFSPath trivialCidLib "" ≠ some false :=
  ⟨rfl, by decide⟩

theorem hexDecode_isSome (bs : List Nat) :
    (hexDecode bs).isSome ↔ bs.length % 2 = 0 ∧ ∀ b ∈ bs, (hexVal b).isSome := by
  induction bs using hexDecode.induct with
  | case1 => simp [hexDecode]
  | case2 x => simp [hexDecode]
  | case3 a b rest ih =>
    have key : (hexDecode (a :: b :: rest)).isSome =
        ((hexVal a).isSome && ((hexVal b).isSome && (hexDecode rest).isSome)) := by
      cases ha : hexVal a <;> cases hb : hexVal b <;> cases hr : hexDecode rest <;>
        simp [hexDecode, ha, hb, hr]
    rw [key]
    simp only [Bool.and_eq_true, List.length_cons, List.mem_cons]
    constructor
    · rintro ⟨ha, hb, hrest⟩
      obtain ⟨hlen, hall⟩ := ih.mp hrest
      refine ⟨by omega, ?_⟩
      rintro bx (rfl | rfl | hbx)
      · exact ha
      · exact hb
      · exact hall bx hbx
    · rintro ⟨hlen, hall⟩
      exact ⟨hall a (by simp), hall b (by simp),
        ih.mpr ⟨by omega, fun x hx => hall x (by simp [hx])⟩⟩

/-- C9 (amended): `IsCIDv1` and `IsDigestHex` are total over all strings
and return `false` exactly off their properties; `IsIPFSPath` is total
over all non-empty strings (on the empty string it panics); `ToCIDv1`
and `ConvertSHA256HexToCIDv1` report failures as returned errors rather
than panics. -/
theorem utils_predicates_total :
    (∀ (lib : CidLib) h, IsCIDv1 lib h = true ↔ lib.parse h = some 1) ∧
    (∀ s, IsDigestHex s = true ↔
      (utf8Bytes s).length = 64 ∧ ∀ b ∈ utf8Bytes s, (hexVal b).isSome) ∧
    (∀ (lib : CidLib) path, path ≠ "" → (IsIPFSPath lib path).isSome) ∧
    (∀ (lib : CidLib) s e, lib.fromB58 s = .error e → ToCIDv1 lib s = .error e) ∧
    (∀ (lib : CidLib) s, hexDecode (utf8Bytes s) = none →
      ∃ e, ConvertSHA256HexToCIDv1 lib s = .error e) := by
  refine ⟨?_, ?_, ?_, ?_, ?_⟩
  · intro lib h
    unfold IsCIDv1
    cases hp : lib.parse h <;> simp
  · intro s
    unfold IsDigestHex
    by_cases hl : (utf8Bytes s).length = 64
    · rw [if_neg (by omega)]
      rw [show ((hexDecode (utf8Bytes s)).isSome = true ↔ _) from hexDecode_isSome _]
      simp [hl]
    · rw [if_pos hl]
      simp [hl]
  · intro lib path hne
    have hd : path.data ≠ [] := by
      intro h; exact hne (by cases path; simp_all)
    cases h : path.data with
    | nil => exact absurd h hd
    | cons c rest =>
      unfold IsIPFSPath
      rw [h]
      by_cases hc : c ≠ '/'
      · simp [hc]
      · simp only [hc, if_false]
        split <;> simp
  · intro lib s e he
    unfold ToCIDv1
    rw [he]
  · intro lib s hd
    unfold ConvertSHA256HexToCIDv1
    rw [hd]
    exact ⟨_, rfl⟩

/-- C9 witness: the totality statements applied at concrete inputs. -/
theorem utils_predicates_total_witness :
    IsDigestHex "dca71257cd2e72840a21f0323234bb2e33fea6d949fa0f21c5102146f583486b" = true ∧
    (IsIPFSPath trivialCidLib "/ipfs/QmQahNfao3EqrFMKExRB8bedoSgot5mQJH5GDPBuMZH41r").isSome ∧
    ToCIDv1 trivialCidLib "not-base58" = .error "parse error" := by
  refine ⟨?_, ?_, ?_⟩
  · exact (utils_predicates_total.2.1 _).mpr (by decide)
  · exact utils_predicates_total.2.2.1 trivialCidLib _ (by decide)
  · exact utils_predicates_total.2.2.2.1 trivialCidLib "not-base58" "parse error" rfl

/-- C8: a `PUT` to a manifests/latest path whose second segment is a
pullable-only name (CID v1 or digest hex) is answered 401 by the
pre-handler; the request is not forwarded to the embedded registry and
neither `MakeGlobalRepo` nor `CloneGlobalRepo` runs, so storage state is
unchanged. -/
theorem put_pullable_rejected :
    ∀ (lib : CidLib) (cloneResult : Except String Unit) (path name : String),
      strContains path "/manifests/latest" = true →
      (pathSegs path)[1]? = some name →
      IsOnlyPullable lib name = true →
      handler lib cloneResult "PUT" path = some ⟨some 401, false, false, false⟩ := by
  intro lib cr path name hc hseg hop
  unfold handler preHandle
  rw [if_pos ⟨rfl, hc⟩, hseg]
  simp [hop]

/-- C8 witness: the rejection at the digest-named manifest path. -/
theorem put_pullable_rejected_witness :
    handler trivialCidLib (.ok ()) "PUT"
      "/v2/dca71257cd2e72840a21f0323234bb2e33fea6d949fa0f21c5102146f583486b/manifests/latest" =
      some ⟨some 401, false, false, false⟩ :=
  put_pullable_rejected trivialCidLib (.ok ()) _
    "dca71257cd2e72840a21f0323234bb2e33fea6d949fa0f21c5102146f583486b"
    (by decide) (by decide) (by decide)

/-- C1: `MakeGlobalRepo` at an input where replication into the primary
store fails — the helper produces the wrapped error, but the call
returns success, contradicting the specification that every failing
step after the deferred cleanup surfaces a wrapped error (`return nil`
in the source where `return err` is intended). -/
theorem makeGlobalRepo_swallows_replication_error :
    (replicateInPrimaryGo envC1 [makeRepoPath "myrepo"]).1 =
      some "failed to replicate '/docker/registry/v2/repositories/myrepo' in primary: primary replication failed" ∧
    (MakeGlobalRepo envC1 "myrepo").1 = .ok () :=
  ⟨rfl, rfl⟩

theorem repLoop_effects (op : String → Except String Unit) (eff : String → Eff) (w : String) :
    ∀ l e, e ∈ (repLoop op eff w l).2 → ∃ p, e = eff p := by
  intro l
  induction l with
  | nil => simp [repLoop]
  | cons p rest ih =>
    intro e he
    unfold repLoop at he
    cases hop : op p with
    | error err =>
      rw [hop] at he
      simp at he
      exact ⟨p, he⟩
    | ok u =>
      rw [hop] at he
      simp at he
      rcases he with rfl | h
      · exact ⟨p, rfl⟩
      · exact ih e h

theorem replicateInPrimaryGo_no_delete (env : SvcEnv) (paths : List String) (q : String) :
    Eff.driverDelete q ∉ (replicateInPrimaryGo env paths).2 := by
  unfold replicateInPrimaryGo
  split
  · simp
  · intro h
    obtain ⟨p, hp⟩ := repLoop_effects _ _ _ _ _ h
    exact Eff.noConfusion hp

theorem replicateInSecondaryGo_no_delete (env : SvcEnv) (paths : List String) (q : String) :
    Eff.driverDelete q ∉ (replicateInSecondaryGo env paths).2 := by
  unfold replicateInSecondaryGo
  split
  · simp
  · intro h
    obtain ⟨p, hp⟩ := repLoop_effects _ _ _ _ _ h
    exact Eff.noConfusion hp

theorem makeGlobalRepoBody_no_delete (env : SvcEnv) (repoName q : String) :
    Eff.driverDelete q ∉ (makeGlobalRepoBody env repoName).2 := by
  intro hmem
  unfold makeGlobalRepoBody at hmem
  repeat' split at hmem
  all_goals try simp only [apply_ite Prod.snd] at hmem
  repeat' split at hmem
  all_goals
    simp_all [replicateInPrimaryGo_no_delete, replicateInSecondaryGo_no_delete]

/-- C3: the driver delete of the pushed repository directory happens on
every exit path — it is the last recorded effect — exactly when the
repository name is neither a CID v1 nor a digest hex; for canonical
names the directory is never deleted by the driver. -/
theorem makeGlobalRepo_delete_iff :
    ∀ (env : SvcEnv) (repoName : String),
      (¬(IsCIDv1 env.lib repoName = true ∨ IsDigestHex repoName = true) →
        (MakeGlobalRepo env repoName).2.getLast? =
          some (.driverDelete (makeRepoPath repoName))) ∧
      ((IsCIDv1 env.lib repoName = true ∨ IsDigestHex repoName = true) →
        Eff.driverDelete (makeRepoPath repoName) ∉ (MakeGlobalRepo env repoName).2) := by
  intro env repoName
  constructor
  · intro h
    push_neg at h
    unfold MakeGlobalRepo
    rw [if_pos ⟨by simp [h.1], by simp [h.2]⟩]
    simp
  · intro h
    unfold MakeGlobalRepo
    rw [if_neg (by tauto)]
    exact makeGlobalRepoBody_no_delete env repoName _

/-- C3 witness: a plain push name is deleted last; a digest name is
never deleted. -/
theorem makeGlobalRepo_delete_iff_witness :
    (MakeGlobalRepo baseEnv "myrepo").2.getLast? =
      some (.driverDelete (makeRepoPath "myrepo")) ∧
    Eff.driverDelete
        (makeRepoPath "dca71257cd2e72840a21f0323234bb2e33fea6d949fa0f21c5102146f583486b") ∉
      (MakeGlobalRepo baseEnv
        "dca71257cd2e72840a21f0323234bb2e33fea6d949fa0f21c5102146f583486b").2 := by
  constructor
  · exact (makeGlobalRepo_delete_iff baseEnv "myrepo").1 (by decide)
  · exact (makeGlobalRepo_delete_iff baseEnv
      "dca71257cd2e72840a21f0323234bb2e33fea6d949fa0f21c5102146f583486b").2
      (Or.inr (by decide))

/-- C4: when the link file resolves to digest `d` and the digest-named
repository already stats with positive size, `MakeGlobalRepo` succeeds
and its only effects are the link read, the stat and (for non-canonical
names) the deferred delete: no disco.json write, no repository
duplication under the CID or digest name and no tag creation — hence a
second push of the same image leaves the storage graph unchanged. -/
theorem makeGlobalRepo_idempotent (env : SvcEnv) (repoName d : String) (st : FileInfo)
    (h1 : env.digestFromLink (makeManifestLinkPath repoName) = .ok d)
    (h2 : env.driverStat (makeRepoPath d) = .ok st) (h3 : 0 < st.size) :
    (MakeGlobalRepo env repoName).1 = .ok () ∧
    (MakeGlobalRepo env repoName).2 =
      [.readLink (makeManifestLinkPath repoName), .statCall (makeRepoPath d)] ++
        (if ¬(IsCIDv1 env.lib repoName) ∧ ¬(IsDigestHex repoName) then
          [.driverDelete (makeRepoPath repoName)] else []) := by
  have hbody : makeGlobalRepoBody env repoName =
      (.ok (), [.readLink (makeManifestLinkPath repoName), .statCall (makeRepoPath d)]) := by
    unfold makeGlobalRepoBody
    rw [h1]
    simp [h2, h3]
  unfold MakeGlobalRepo
  rw [hbody]
  split_ifs with hcond <;> simp_all

/-- C4 witness: the short-circuit evaluated in an environment where the
digest repository already exists with size 1. -/
theorem makeGlobalRepo_idempotent_witness :
    (MakeGlobalRepo envC4 "myrepo").1 = .ok () ∧
    (MakeGlobalRepo envC4 "myrepo").2 =
      [.readLink (makeManifestLinkPath "myrepo"),
        .statCall
          (makeRepoPath "dca71257cd2e72840a21f0323234bb2e33fea6d949fa0f21c5102146f583486b")] ++
        (if ¬(IsCIDv1 envC4.lib "myrepo") ∧ ¬(IsDigestHex "myrepo") then
          [.driverDelete (makeRepoPath "myrepo")] else []) :=
  makeGlobalRepo_idempotent envC4 "myrepo"
    "dca71257cd2e72840a21f0323234bb2e33fea6d949fa0f21c5102146f583486b"
    ⟨1, false⟩ rfl rfl (by decide)

/-- C10: with no secondary cache configured the driver factory returns
the plain IPFS driver; for a CID v1 name whose disco.json stat reports
path-not-found, `tryReplicateInSecondary` is then a no-op returning nil,
so `CloneGlobalRepo` returns success immediately — its only effect is
the stat — and the network-clone steps never run, even with the noclone
flag false. -/
theorem cloneGlobalRepo_plain_driver_skips_clone :
    ∀ (env : SvcEnv) (repoName : String),
      IsCIDv1 env.lib repoName = true →
      env.isMulti = multidriverIs (driverFactoryCreate none) →
      env.driverStat (makeDiscoFilePath repoName) = .error .pathNotFound →
      CloneGlobalRepo env repoName = (.ok (), [.statCall (makeDiscoFilePath repoName)]) := by
  intro env repoName hcid hmulti hstat
  have hm : env.isMulti = false := by
    rw [hmulti]
    rfl
  unfold CloneGlobalRepo
  rw [if_neg (by simp [hcid]), hstat]
  unfold tryReplicateInSecondaryGo
  simp [hm]

/-- C10 witness: the no-op clone evaluated with the plain driver and
noclone false. -/
theorem cloneGlobalRepo_plain_driver_skips_clone_witness :
    CloneGlobalRepo envC10 "bafytest" =
      (.ok (), [.statCall (makeDiscoFilePath "bafytest")]) ∧
    envC10.noClone = false :=
  ⟨cloneGlobalRepo_plain_driver_skips_clone envC10 "bafytest" (by decide) rfl rfl, rfl⟩

theorem fwWrite_ok_step (env : WEnv) (s : WState) (c : List Nat)
    (hp : env.priWriteE s.priCalls = none) (hs : env.secWriteE s.secCalls = none) :
    fwWrite env s c = ((c.length, none),
      { trace := s.trace ++ [WEv.wPri c, WEv.wSec c], priCalls := s.priCalls + 1,
        secCalls := s.secCalls + 1, priBytes := s.priBytes + c.length,
        secBytes := s.secBytes + c.length }) := by
  simp [fwWrite, priWrite, secWrite, hp, hs]

/-- C2: the composite writer sends every chunk to the primary backend
first and the secondary second, in sequence; `Size` reports the primary
writer's size; a primary write error returns at once (secondary not
invoked), a secondary write error is returned after both calls; and
Close, Cancel and Commit each run primary first then secondary,
returning the first error encountered. -/
theorem fileWriter_fanout_spec :
    (∀ (env : WEnv) (s : WState) chunks,
      (∀ k, env.priWriteE k = none) → (∀ k, env.secWriteE k = none) →
      (fwWriteAll env s chunks).2.trace =
        s.trace ++ chunks.flatMap (fun c => [WEv.wPri c, WEv.wSec c]) ∧
      (fwWriteAll env s chunks).2.priBytes = s.priBytes + (chunks.map List.length).sum ∧
      ∀ r ∈ (fwWriteAll env s chunks).1, r.2 = none) ∧
    (∀ s, fwSize s = s.priBytes) ∧
    (∀ (env : WEnv) (s : WState) p e, env.priWriteE s.priCalls = some e →
      (fwWrite env s p).1.2 = some e ∧
      (fwWrite env s p).2.trace = s.trace ++ [WEv.wPri p]) ∧
    (∀ (env : WEnv) (s : WState) p e,
      env.priWriteE s.priCalls = none → env.secWriteE s.secCalls = some e →
      (fwWrite env s p).1.2 = some e ∧
      (fwWrite env s p).2.trace = s.trace ++ [WEv.wPri p, WEv.wSec p]) ∧
    (∀ (env : WEnv) (s : WState),
      (env.priCloseE = none → env.secCloseE = none →
        fwClose env s = (none, { s with trace := s.trace ++ [WEv.clPri, WEv.clSec] })) ∧
      (∀ e, env.priCloseE = some e →
        fwClose env s = (some e, { s with trace := s.trace ++ [WEv.clPri] })) ∧
      (∀ e, env.priCloseE = none → env.secCloseE = some e →
        fwClose env s = (some e, { s with trace := s.trace ++ [WEv.clPri, WEv.clSec] }))) ∧
    (∀ (env : WEnv) (s : WState),
      (env.priCancelE = none → env.secCancelE = none →
        fwCancel env s = (none, { s with trace := s.trace ++ [WEv.caPri, WEv.caSec] })) ∧
      (∀ e, env.priCancelE = some e →
        fwCancel env s = (some e, { s with trace := s.trace ++ [WEv.caPri] })) ∧
      (∀ e, env.priCancelE = none → env.secCancelE = some e →
        fwCancel env s = (some e, { s with trace := s.trace ++ [WEv.caPri, WEv.caSec] }))) ∧
    (∀ (env : WEnv) (s : WState),
      (env.priCommitE = none → env.secCommitE = none →
        fwCommit env s = (none, { s with trace := s.trace ++ [WEv.coPri, WEv.coSec] })) ∧
      (∀ e, env.priCommitE = some e →
        fwCommit env s = (some e, { s with trace := s.trace ++ [WEv.coPri] })) ∧
      (∀ e, env.priCommitE = none → env.secCommitE = some e →
        fwCommit env s = (some e, { s with trace := s.trace ++ [WEv.coPri, WEv.coSec] }))) := by
  refine ⟨?_, fun _ => rfl, ?_, ?_, ?_, ?_, ?_⟩
  · intro env s chunks hp hs
    induction chunks generalizing s with
    | nil => simp [fwWriteAll]
    | cons c rest ih =>
      have hw := fwWrite_ok_step env s c (hp _) (hs _)
      obtain ⟨ih1, ih2, ih3⟩ := ih
        { trace := s.trace ++ [WEv.wPri c, WEv.wSec c], priCalls := s.priCalls + 1,
          secCalls := s.secCalls + 1, priBytes := s.priBytes + c.length,
          secBytes := s.secBytes + c.length }
      refine ⟨?_, ?_, ?_⟩
      · simp only [fwWriteAll, hw, ih1]
        simp
      · simp only [fwWriteAll, hw, ih2]
        simp
        omega
      · intro r hr
        simp only [fwWriteAll, hw] at hr
        simp at hr
        rcases hr with rfl | hr
        · rfl
        · exact ih3 r hr
  · intro env s p e he
    simp [fwWrite, priWrite, he]
  · intro env s p e hp hs
    simp [fwWrite, priWrite, secWrite, hp, hs]
  · intro env s
    refine ⟨?_, ?_, ?_⟩
    · intro h1 h2; simp [fwClose, h1, h2]
    · intro e h1; simp [fwClose, h1]
    · intro e h1 h2; simp [fwClose, h1, h2]
  · intro env s
    refine ⟨?_, ?_, ?_⟩
    · intro h1 h2; simp [fwCancel, h1, h2]
    · intro e h1; simp [fwCancel, h1]
    · intro e h1 h2; simp [fwCancel, h1, h2]
  · intro env s
    refine ⟨?_, ?_, ?_⟩
    · intro h1 h2; simp [fwCommit, h1, h2]
    · intro e h1; simp [fwCommit, h1]
    · intro e h1 h2; simp [fwCommit, h1, h2]

/-- C2 witness: two chunks through error-free backends land primary
first then secondary for each chunk in order, and the composite size is
the primary's byte count. -/
theorem fileWriter_fanout_spec_witness :
    (fwWriteAll wEnvOk wInit [[1, 2], [3]]).2.trace =
      [WEv.wPri [1, 2], WEv.wSec [1, 2], WEv.wPri [3], WEv.wSec [3]] ∧
    fwSize (fwWriteAll wEnvOk wInit [[1, 2], [3]]).2 = 3 := by
  have h := fileWriter_fanout_spec.1 wEnvOk wInit [[1, 2], [3]]
    (fun _ => rfl) (fun _ => rfl)
  refine ⟨by simpa [wInit] using h.1, ?_⟩
  rw [fileWriter_fanout_spec.2.1]
  simpa [wInit] using h.2.1

theorem findEntry_putStore_same (s : List Entry) (p : String) (c : List Nat) :
    findEntry (putStore s p c) p = some ⟨p, false, c⟩ := by
  induction s with
  | nil => simp [putStore, findEntry]
  | cons e rest ih =>
    by_cases h : e.path = p
    · simp [putStore, findEntry, h]
    · simp only [putStore]
      rw [if_neg (by simpa using h)]
      unfold findEntry at *
      rw [List.find?_cons_of_neg _ (by simpa using h)]
      exact ih

theorem findEntry_putStore_other (s : List Entry) (p q : String) (c : List Nat)
    (hne : q ≠ p) :
    findEntry (putStore s p c) q = findEntry s q := by
  induction s with
  | nil =>
    simp only [putStore, findEntry]
    rw [List.find?_cons_of_neg _ (by simpa using Ne.symm hne)]
  | cons e rest ih =>
    by_cases h : e.path = p
    · simp only [putStore]
      rw [if_pos (by simpa using h)]
      unfold findEntry
      rw [List.find?_cons_of_neg _ (by simpa using Ne.symm hne),
        List.find?_cons_of_neg _ (by simp [h]; exact Ne.symm hne)]
    · simp only [putStore]
      rw [if_neg (by simpa using h)]
      by_cases hq : e.path = q
      · unfold findEntry
        rw [List.find?_cons_of_pos _ (by simpa using hq),
          List.find?_cons_of_pos _ (by simpa using hq)]
      · unfold findEntry at *
        rw [List.find?_cons_of_neg _ (by simpa using hq),
          List.find?_cons_of_neg _ (by simpa using hq)]
        exact ih

theorem replaceOnceL_self (old : List Char) : ∀ l, replaceOnceL l old old = l := by
  intro l
  induction l with
  | nil =>
    unfold replaceOnceL
    split <;> simp_all [List.isEmpty_iff]
  | cons c rest ih =>
    unfold replaceOnceL
    by_cases h : old.isPrefixOf (c :: rest)
    · rw [if_pos h]
      obtain ⟨t, ht⟩ := List.isPrefixOf_iff_prefix.mp h
      rw [← ht, List.drop_left]
    · rw [if_neg h, ih]

theorem replaceOnce_self (s b : String) : replaceOnce s b b = s := by
  unfold replaceOnce
  rw [replaceOnceL_self]

theorem foldPut_notin (fs : List Entry) (q : String)
    (h : ∀ y ∈ fs, y.path ≠ q) :
    ∀ d2, findEntry
      (fs.foldl (fun acc x => if x.isDir then acc else putStore acc x.path x.content) d2) q =
      findEntry d2 q := by
  induction fs with
  | nil => intro d2; simp
  | cons x rest ih =>
    intro d2
    simp only [List.foldl_cons]
    rw [ih (fun y hy => h y (by simp [hy]))]
    by_cases hd : x.isDir
    · simp [hd]
    · simp [hd, findEntry_putStore_other _ _ _ _ (Ne.symm (h x (by simp)))]

theorem foldPut_mem (fs : List Entry) (e : Entry)
    (hnd : (fs.map Entry.path).Nodup) (he : e ∈ fs) (hdir : e.isDir = false) :
    ∀ d2, findEntry
      (fs.foldl (fun acc x => if x.isDir then acc else putStore acc x.path x.content) d2)
        e.path = some ⟨e.path, false, e.content⟩ := by
  induction fs with
  | nil => cases he
  | cons x rest ih =>
    intro d2
    simp only [List.foldl_cons]
    rcases List.mem_cons.mp he with rfl | hmem
    · have hne : ∀ y ∈ rest, y.path ≠ e.path := by
        intro y hy hh
        exact (List.nodup_cons.mp (by simpa using hnd)).1
          (hh ▸ List.mem_map_of_mem Entry.path hy)
      rw [foldPut_notin rest e.path hne]
      simp only [hdir, Bool.false_eq_true, if_false]
      exact findEntry_putStore_same d2 e.path e.content
    · exact ih (List.nodup_cons.mp (by simpa using hnd)).2 hmem _

theorem findEntry_of_mem_nodup (s : List Entry) (e : Entry)
    (hnd : (s.map Entry.path).Nodup) (he : e ∈ s) :
    findEntry s e.path = some e := by
  induction s with
  | nil => cases he
  | cons x rest ih =>
    rcases List.mem_cons.mp he with rfl | hm
    · unfold findEntry
      rw [List.find?_cons_of_pos _ (by simp)]
    · by_cases hx : x.path = e.path
      · exfalso
        exact (List.nodup_cons.mp (by simpa using hnd)).1
          (hx ▸ List.mem_map_of_mem Entry.path hm)
      · unfold findEntry at *
        rw [List.find?_cons_of_neg _ (by simpa using hx)]
        exact ih (List.nodup_cons.mp (by simpa using hnd)).2 hm

theorem walkSync_ok (d1 : List Entry) (base : String) :
    ∀ (fs d2 : List Entry),
      (∀ e ∈ fs, e.isDir = false → findEntry d1 e.path = some e) →
      walkSync d1 base base d2 fs =
        .ok (fs.foldl (fun acc x => if x.isDir then acc else putStore acc x.path x.content) d2) := by
  intro fs
  induction fs with
  | nil => intro d2 h; simp [walkSync]
  | cons e rest ih =>
    intro d2 h
    unfold walkSync
    by_cases hd : e.isDir
    · rw [if_pos hd, ih _ (fun y hy hdir => h y (by simp [hy]) hdir)]
      simp [hd]
    · rw [if_neg hd]
      have hfind := h e (by simp) (by simpa using hd)
      unfold syncD1ToD2 readStore
      rw [replaceOnce_self, hfind]
      simp only [hd, Bool.false_eq_true, if_false]
      rw [ih _ (fun y hy hdir => h y (by simp [hy]) hdir)]
      simp [hd]

/-- C7: `ReplicateInSecondary(path)` — a path already in the secondary
is returned without copying; a path absent in both stores yields the
path-not-found error with neither store modified; a regular file
present only in the primary has its bytes written to the same path in
the secondary and committed; and for a directory in the primary every
regular file under it (found by walking the primary) is copied to the
same path in the secondary. -/
theorem replicateInSecondary_spec :
    (∀ (pri sec : List Entry) p i, statStore sec p = .ok i →
      ReplicateInSecondary pri sec p = (.ok i, sec)) ∧
    (∀ (pri sec : List Entry) p,
      statStore sec p = .error .pathNotFound →
      statStore pri p = .error .pathNotFound →
      ReplicateInSecondary pri sec p = (.error .pathNotFound, sec)) ∧
    (∀ (pri sec : List Entry) p c,
      statStore sec p = .error .pathNotFound →
      findEntry pri p = some ⟨p, false, c⟩ →
      ReplicateInSecondary pri sec p =
        (.ok ⟨Int.ofNat c.length, false⟩, putStore sec p c) ∧
      findEntry (ReplicateInSecondary pri sec p).2 p = some ⟨p, false, c⟩) ∧
    (∀ (pri sec : List Entry) p d,
      statStore sec p = .error .pathNotFound →
      findEntry pri p = some ⟨p, true, d⟩ →
      (pri.map Entry.path).Nodup →
      ∀ e ∈ pri, underPath p e.path = true → e.isDir = false →
        findEntry (ReplicateInSecondary pri sec p).2 e.path =
          some ⟨e.path, false, e.content⟩) := by
  refine ⟨?_, ?_, ?_, ?_⟩
  · intro pri sec p i h
    unfold ReplicateInSecondary Replicate
    simp [h]
  · intro pri sec p hsec hpri
    unfold ReplicateInSecondary Replicate
    simp [hsec, hpri]
  · intro pri sec p c hsec hfind
    have hstatpri : statStore pri p = .ok ⟨Int.ofNat c.length, false⟩ := by
      simp [statStore, hfind]
    have hsync : syncD1ToD2 pri sec p p = .ok (putStore sec p c) := by
      simp [syncD1ToD2, readStore, hfind]
    have hstatput : statStore (putStore sec p c) p = .ok ⟨Int.ofNat c.length, false⟩ := by
      simp [statStore, findEntry_putStore_same]
    have key : ReplicateInSecondary pri sec p =
        (.ok ⟨Int.ofNat c.length, false⟩, putStore sec p c) := by
      unfold ReplicateInSecondary Replicate
      simp [hsec, hstatpri, hsync, hstatput]
    exact ⟨key, by rw [key]; exact findEntry_putStore_same sec p c⟩
  · intro pri sec p d hsec hfind hnd e he hunder hdir
    have hpri : statStore pri p = .ok ⟨Int.ofNat d.length, true⟩ := by
      simp [statStore, hfind]
    have hws := walkSync_ok pri p (walkFiles pri p) sec
      (fun y hy hyd => findEntry_of_mem_nodup pri y hnd (List.mem_of_mem_filter hy))
    have h2 : (ReplicateInSecondary pri sec p).2 =
        (walkFiles pri p).foldl
          (fun acc x => if x.isDir then acc else putStore acc x.path x.content) sec := by
      unfold ReplicateInSecondary Replicate
      simp only [hsec, hpri, hws]
      cases hstat : statStore ((walkFiles pri p).foldl
          (fun acc x => if x.isDir then acc else putStore acc x.path x.content) sec) p <;>
        simp [hstat]
    rw [h2]
    exact foldPut_mem _ e
      (hnd.sublist ((List.filter_sublist _).map Entry.path))
      (List.mem_filter.mpr ⟨he, hunder⟩) hdir sec

/-- C7 witness: a file-only replication, an already-present path and a
directory walk, each evaluated on concrete stores. -/
theorem replicateInSecondary_spec_witness :
    ReplicateInSecondary [Entry.mk "/f" false [7, 8]] [] "/f" =
      (.ok ⟨2, false⟩, [Entry.mk "/f" false [7, 8]]) ∧
    ReplicateInSecondary [] [Entry.mk "/f" false [7]] "/f" =
      (.ok ⟨1, false⟩, [Entry.mk "/f" false [7]]) ∧
    findEntry
      (ReplicateInSecondary [Entry.mk "/d" true [], Entry.mk "/d/f" false [9]] [] "/d").2
      "/d/f" = some (Entry.mk "/d/f" false [9]) := by
  refine ⟨?_, ?_, ?_⟩
  · exact (replicateInSecondary_spec.2.2.1 [Entry.mk "/f" false [7, 8]] [] "/f" [7, 8]
      rfl rfl).1
  · exact replicateInSecondary_spec.1 [] [Entry.mk "/f" false [7]] "/f" ⟨1, false⟩ rfl
  · exact replicateInSecondary_spec.2.2.2
      [Entry.mk "/d" true [], Entry.mk "/d/f" false [9]] [] "/d" [] rfl rfl (by decide)
      (Entry.mk "/d/f" false [9]) (by decide) (by decide) rfl

theorem routeContentSegs_ok_len (n : Nat) (segs : List String) (x : String × Nat)
    (h : routeContentSegs n segs = some (.ok x)) : 5 ≤ segs.length := by
  by_contra hlt
  push_neg at hlt
  unfold routeContentSegs at h
  rw [if_pos hlt] at h
  simp at h

theorem route_ok_not_ipfsPath (lib : CidLib) (n : Nat) (path : String) (x : String × Nat)
    (h : routeContent n path = some (.ok x)) :
    IsIPFSPath lib path = some false := by
  unfold routeContent at h
  cases hd : path.data with
  | nil => rw [hd] at h; cases h
  | cons c rest =>
    rw [hd] at h
    have hlen := routeContentSegs_ok_len _ _ _ h
    rw [List.length_map] at hlen
    unfold IsIPFSPath
    rw [hd]
    by_cases hc : c ≠ '/'
    · simp [hc]
    · push_neg at hc
      have hne : (splitSlash rest).length ≠ 2 := by omega
      simp [hc, hne]

/-- C6: the routed client's `FilesMv` issues a single native rename on
the shared node when source and destination route to the same node;
when they route to different nodes it force-removes the destination
(ignoring the removal error), then copies the source — resolved to
`/ipfs/<hash>` — to the destination node, then removes the source from
its node; and `FilesCp` resolves any source that is not an
`/ipfs/<cid>` path to `/ipfs/<hash>` via `FilesStat` before issuing
the copy at the destination node's client (a failing stat returns its
error and no copy is issued). -/
theorem routedClient_mv_cp_spec :
    (∀ (env : RCEnv) src dest id1 id2 i,
      routeContent env.n src = some (.ok (id1, i)) →
      routeContent env.n dest = some (.ok (id2, i)) →
      rcFilesMv env src dest = some (env.mvRes i src dest, [.mvNode i src dest])) ∧
    (∀ (env : RCEnv) src dest id1 id2 i j h,
      routeContent env.n src = some (.ok (id1, i)) →
      routeContent env.n dest = some (.ok (id2, j)) →
      i ≠ j →
      env.statHash i src = .ok h →
      env.cpRes j ("/ipfs/" ++ h) dest = none →
      rcFilesMv env src dest = some (env.rmRes i src true,
        [.rmNode j dest true, .statAt i src, .cpNode j ("/ipfs/" ++ h) dest,
          .rmNode i src true])) ∧
    (∀ (env : RCEnv) src dest id1 i h id2 j,
      IsIPFSPath env.lib src = some false →
      routeContent env.n src = some (.ok (id1, i)) →
      env.statHash i src = .ok h →
      routeContent env.n dest = some (.ok (id2, j)) →
      rcFilesCp env src dest = some (env.cpRes j ("/ipfs/" ++ h) dest,
        [.statAt i src, .cpNode j ("/ipfs/" ++ h) dest])) ∧
    (∀ (env : RCEnv) src dest id1 i e,
      IsIPFSPath env.lib src = some false →
      routeContent env.n src = some (.ok (id1, i)) →
      env.statHash i src = .error e →
      rcFilesCp env src dest = some (some e, [.statAt i src])) := by
  have hcp : ∀ (env : RCEnv) src dest id1 i h id2 j,
      IsIPFSPath env.lib src = some false →
      routeContent env.n src = some (.ok (id1, i)) →
      env.statHash i src = .ok h →
      routeContent env.n dest = some (.ok (id2, j)) →
      rcFilesCp env src dest = some (env.cpRes j ("/ipfs/" ++ h) dest,
        [.statAt i src, .cpNode j ("/ipfs/" ++ h) dest]) := by
    intro env src dest id1 i h id2 j hip hs hstat hd
    unfold rcFilesCp rcFilesStat rcCpAtDest rcGetClientFor
    rw [hip]
    simp [hs, hd, hstat]
  refine ⟨?_, ?_, hcp, ?_⟩
  · intro env src dest id1 id2 i hs hd
    unfold rcFilesMv rcGetClientFor
    simp [hs, hd]
  · intro env src dest id1 id2 i j h hs hd hij hstat hcpok
    have hip := route_ok_not_ipfsPath env.lib env.n src _ hs
    have hc := hcp env src dest id1 i h id2 j hip hs hstat hd
    unfold rcFilesMv rcFilesRm rcGetClientFor
    rw [hs, hd]
    simp only []
    rw [if_neg hij]
    simp [hc, hcpok, hd]
  · intro env src dest id1 i e hip hs hstat
    unfold rcFilesCp rcFilesStat rcGetClientFor
    rw [hip]
    simp [hs, hstat]

/-- C6 witness: with two nodes, a cross-node move degrades to remove /
copy-by-hash / remove, and a same-node move is a single rename. -/
theorem routedClient_mv_cp_spec_witness :
    rcFilesMv rcEnvW "/docker/registry/v2/repositories/aa"
        "/docker/registry/v2/uploads/ac" =
      some (none, [.rmNode 1 "/docker/registry/v2/uploads/ac" true,
        .statAt 0 "/docker/registry/v2/repositories/aa",
        .cpNode 1 "/ipfs/QmHashW" "/docker/registry/v2/uploads/ac",
        .rmNode 0 "/docker/registry/v2/repositories/aa" true]) ∧
    rcFilesMv rcEnvW "/docker/registry/v2/repositories/aa"
        "/docker/registry/v2/repositories/aa" =
      some (none, [.mvNode 0 "/docker/registry/v2/repositories/aa"
        "/docker/registry/v2/repositories/aa"]) := by
  constructor
  · exact routedClient_mv_cp_spec.2.1 rcEnvW _ _ "aa" "ac" 0 1 "QmHashW"
      rfl rfl (by decide) rfl rfl
  · exact routedClient_mv_cp_spec.1 rcEnvW _ _ "aa" "aa" 0 rfl rfl

end Disco
